import Mathlib

/-!
Verification of the IAW notebooks (annotation-table and keyword-search pipelines).

A shallow embedding of the two Jupyter notebooks of the `iaw-notebooks`
repository: the polygon-selector parser `extract_polygon_points`, the
mask-and-crop routine `crop_image`, the keyword filter
`annotation_contains_keyword`, the keyword-search traversal, the image cache
loader, and the two table-building loops.

Conventions of the embedding:
* Python exceptions are modelled by `Except PyExn`; each built-in exception the
  code can raise is a constructor of `PyExn`.
* Images (`numpy` arrays of shape height × width × channels, dtype uint8) are
  lists of rows of pixels, a pixel being the list of its channel values.
* Python `str.split(sep)` with an explicit separator is `pySplit` (it keeps
  empty fields, exactly like Python), and the substring test `a in b` is
  `pyIn`; both work on the character lists of the strings.
* External library calls excluded by the specification (OpenCV, base64,
  pandas, HTTP transport) are modelled by explicit parameters or, for
  `cv2.fillPoly`, by the scanline polygon fill described in the specification.
-/

set_option maxRecDepth 1000000

deriving instance DecidableEq for Except

/-- The Python exceptions that the notebook code can raise, plus the two
explicit error types named by the specification.  `emptyRegionError` and
`parseError` are modelled from the spec (§7: `EmptyRegionError`, `ParseError`);
the notebook code itself never constructs them, which is what the
error-handling claims are about. -/
inductive PyExn where
  /-- Python `IndexError` (out-of-range list index, e.g. `split('"')[1]`). -/
  | indexError
  /-- Python `ValueError` (failed tuple unpacking, `float()` on a bad string,
  or a `numpy` reduction such as `np.min` over an empty array). -/
  | valueError
  /-- Python `KeyError` (missing dictionary key). -/
  | keyError
  /-- Python `TypeError` (e.g. indexing a string as if it were a dict). -/
  | typeError
  /-- Constructor `EmptyRegionError`: modelled from the spec (§4.2/§7); the explicit error
  the spec mandates for an empty crop region.  Never raised by the code. -/
  | emptyRegionError
  /-- Constructor `ParseError`: modelled from the spec (§4.1/§7); the explicit error the
  spec mandates for malformed selectors.  Never raised by the code. -/
  | parseError
deriving DecidableEq

/-! ## Python string primitives -/

/-- The test `leadsWith n h` is true when the list `n` is an initial segment of `h`. -/
def leadsWith : List Char → List Char → Bool
  | [], _ => true
  | _ :: _, [] => false
  | n :: ns, c :: cs => n == c && leadsWith ns cs

/-- The test `containsSeq n h` is true when `n` occurs as a contiguous subsequence of `h`.
This is Python's substring test `n in h` on character lists. -/
def containsSeq : List Char → List Char → Bool
  | needle, [] => needle.isEmpty
  | needle, c :: rest => leadsWith needle (c :: rest) || containsSeq needle rest

/-- Python `needle in haystack` on strings. -/
def pyIn (needle haystack : String) : Bool :=
  containsSeq needle.toList haystack.toList

/-- Python `s.lower()`, character by character (the notebooks only ever
lowercase ASCII text). -/
def pyLower (s : String) : String :=
  String.mk (s.toList.map Char.toLower)

/-- Splitting a character list at every occurrence of `sep`, keeping empty
fields — the behaviour of Python `str.split(sep)` with an explicit separator. -/
def splitChar (sep : Char) : List Char → List (List Char)
  | [] => [[]]
  | c :: rest =>
    if c == sep then [] :: splitChar sep rest
    else
      match splitChar sep rest with
      | [] => [[c]]
      | t :: ts => (c :: t) :: ts

/-- Python `s.split(sep)` for a one-character separator. -/
def pySplit (s : String) (sep : Char) : List String :=
  (splitChar sep s.toList).map (fun cs => String.mk cs)

/-- Numeric value of a list of decimal digits. -/
def natOfDigits (cs : List Char) : Nat :=
  cs.foldl (fun n c => 10 * n + (c.toNat - 48)) 0

/-- Python `int(float(s))` for a decimal literal: optional sign, digits, at
most one decimal point, at least one digit overall; the result truncates
toward zero, hence is the signed integer part.  A string `float()` cannot
parse gives `none` (Python raises `ValueError`). -/
def pyFloatTrunc (s : String) : Option Int :=
  let (neg, ds) :=
    match s.toList with
    | '-' :: r => (true, r)
    | '+' :: r => (false, r)
    | r => (false, r)
  let ip := ds.takeWhile (fun c => !(c == '.'))
  let rest := ds.dropWhile (fun c => !(c == '.'))
  let wellFormed :=
    match rest with
    | [] => ip.all Char.isDigit && !ip.isEmpty
    | _ :: fp => ip.all Char.isDigit && fp.all Char.isDigit && !(ip.isEmpty && fp.isEmpty)
  if wellFormed then
    let v : Int := Int.ofNat (natOfDigits ip)
    some (if neg then -v else v)
  else none

/-! ## `extract_polygon_points` -/

/-- One iteration of the parsing loop: `x, y = point.split(',')` followed by
`[int(float(x)), int(float(y))]`.  Unpacking a list whose length is not 2, and
`float()` on a non-numeric string, both raise `ValueError` in Python. -/
def parsePoint (point : String) : Except PyExn (Int × Int) :=
  match pySplit point ',' with
  | [xs, ys] =>
    match pyFloatTrunc xs, pyFloatTrunc ys with
    | some x, some y => .ok (x, y)
    | _, _ => .error .valueError
  | _ => .error .valueError

/-- The `for point in selector_value.split(' ')` loop of
`extract_polygon_points`, accumulating points in order; the first bad token
raises. -/
def parsePointTokens : List String → Except PyExn (List (Int × Int))
  | [] => .ok []
  | t :: ts =>
    match parsePoint t with
    | .error e => .error e
    | .ok p =>
      match parsePointTokens ts with
      | .error e => .error e
      | .ok ps => .ok (p :: ps)

/-- The function `extract_polygon_points(selector)` from both notebooks:
`selector_value = selector.split('"')[1]` (IndexError when the selector has no
quote), then each space-separated token is split on `','` and parsed with
`int(float(_))`. -/
def extract_polygon_points (selector : String) : Except PyExn (List (Int × Int)) :=
  match (pySplit selector '"')[1]? with
  | none => .error .indexError
  | some selector_value => parsePointTokens (pySplit selector_value ' ')

/-! ## Images, the polygon mask, and `crop_image` -/

/-- A pixel: the list of its channel values (uint8, so `Nat` values < 256). -/
abbrev Pixel := List Nat

/-- A decoded raster buffer: rows of pixels (height × width × channels). -/
abbrev Img := List (List Pixel)

/-- Whether `p` lies on the segment from `a` to `b` (zero cross product and inside the
segment's bounding box). -/
def onSeg (a b p : Int × Int) : Bool :=
  decide ((b.1 - a.1) * (p.2 - a.2) = (b.2 - a.2) * (p.1 - a.1)
    ∧ min a.1 b.1 ≤ p.1 ∧ p.1 ≤ max a.1 b.1
    ∧ min a.2 b.2 ≤ p.2 ∧ p.2 ≤ max a.2 b.2)

/-- The horizontal ray from `p` crosses the open edge from `a` to `b`
(half-open in `y` so shared vertices are counted once). -/
def edgeCross (a b p : Int × Int) : Bool :=
  decide ((a.2 ≤ p.2 ∧ p.2 < b.2 ∧ (p.1 - a.1) * (b.2 - a.2) < (b.1 - a.1) * (p.2 - a.2))
    ∨ (b.2 ≤ p.2 ∧ p.2 < a.2 ∧ (b.1 - a.1) * (p.2 - a.2) < (p.1 - a.1) * (b.2 - a.2)))

/-- The closed edge list of a polygon (consecutive vertices plus the closing
edge back to the first vertex). -/
def polyEdges (pts : List (Int × Int)) : List ((Int × Int) × (Int × Int)) :=
  match pts with
  | [] => []
  | p :: _ => pts.zip (pts.drop 1 ++ [p])

/-- Even–odd scanline membership: `p` is on the polygon boundary or its
horizontal ray crosses an odd number of edges. -/
def pointInPoly (pts : List (Int × Int)) (p : Int × Int) : Bool :=
  let es := polyEdges pts
  es.any (fun e => onSeg e.1 e.2 p) ||
    (es.foldl (fun n e => if edgeCross e.1 e.2 p then n + 1 else n) 0) % 2 == 1

/-- Modelled from the spec: `cv2.fillPoly` is an external OpenCV call (the
spec's §1 excludes OpenCV as a collaborator); §4.2 describes it as a standard
point-in-polygon scanline fill writing full intensity `(255,) * channel_count`
across all channels, boundary included, into a zero mask of the image's
shape.  Pixels outside the image are clipped away automatically because the
mask only has the image's own coordinates. -/
def fillPolyMask (image : Img) (points : List (Int × Int)) : Img :=
  let channel_count := ((image.headD []).headD []).length
  let ignore_mask_color : Pixel := List.replicate channel_count 255
  let zero_color : Pixel := List.replicate channel_count 0
  image.enum.map (fun yrow =>
    yrow.2.enum.map (fun xpx =>
      if pointInPoly points (Int.ofNat xpx.1, Int.ofNat yrow.1) then ignore_mask_color
      else zero_color))

/-- The call `cv2.bitwise_and(image, mask)`: element-wise bitwise AND. -/
def applyAnd (image mask : Img) : Img :=
  List.zipWith (fun row mrow => List.zipWith (fun px mpx => List.zipWith Nat.land px mpx) row mrow)
    image mask

/-- The first two steps of `crop_image`: build the polygon mask and apply it
(`masked_image = cv2.bitwise_and(image, mask)`). -/
def maskedImage (image : Img) (points : List (Int × Int)) : Img :=
  applyAnd image (fillPolyMask image points)

/-- The coordinates produced by `y, x, _ = np.where(masked_image != 0)`:
one `(y, x)` entry per non-zero channel value, in row-major order. -/
def nzCoords (img : Img) : List (Nat × Nat) :=
  img.enum.flatMap (fun yrow =>
    yrow.2.enum.flatMap (fun xpx =>
      xpx.2.filterMap (fun v => if v ≠ 0 then some (yrow.1, xpx.1) else none)))

/-- The slice `masked_image[ymin:ymax, xmin:xmax]` — numpy basic slicing, which is
half-open: row `ymax` and column `xmax` are not part of the result. -/
def bboxSlice (masked_image : Img) (ymin ymax xmin xmax : Nat) : Img :=
  ((masked_image.drop ymin).take (ymax - ymin)).map
    (fun row => (row.drop xmin).take (xmax - xmin))

/-- The function `crop_image(image, points)` from both notebooks.  When the masked image
has no non-zero entry, `np.min` receives an empty array and raises
`ValueError`; otherwise the crop is
`masked_image[np.min(y):np.max(y), np.min(x):np.max(x)]`. -/
def crop_image (image : Img) (points : List (Int × Int)) : Except PyExn Img :=
  match nzCoords (maskedImage image points) with
  | [] => .error .valueError
  | p :: ps =>
    .ok (bboxSlice (maskedImage image points)
      (ps.foldl (fun m q => min m q.1) p.1) (ps.foldl (fun m q => max m q.1) p.1)
      (ps.foldl (fun m q => min m q.2) p.2) (ps.foldl (fun m q => max m q.2) p.2))

/-! ## Annotations and the keyword filter -/

/-- The slice of an annotation's `fields` mapping that the notebooks read.
Each member models the presence test `'name' in fields` together with the
value sequence behind it: `title`, `note` and `line_color` carry
`fields[name]['en']['values']` (a list of strings), and `tag` carries the
`term_label` of each item of `fields['tag']['en']['values']`. -/
structure Fields where
  title : Option (List String)
  tag : Option (List String)
  note : Option (List String)
  line_color : Option (List String)
deriving DecidableEq

/-- An annotation as the notebooks consume it: the target image id, the
selector string `annotation['target']['selector']['value']`, and the `fields`
mapping. -/
structure Annotation where
  image_id : Nat
  selector : String
  fields : Fields
deriving DecidableEq

/-- The filter `annotation_contains_keyword(annotation, keyword)` from the keyword-search
notebook: case-insensitive substring test of the keyword against every title
value, then against every tag `term_label`, returning at the first hit. -/
def annotation_contains_keyword ( annotation : Annotation) (keyword : String) : Bool :=
  let fields := annotation.fields
  let titleHit :=
    match fields.title with
    | some values => values.any (fun title_value => pyIn (pyLower keyword) (pyLower title_value))
    | none => false
  if titleHit then true
  else
    match fields.tag with
    | some values => values.any (fun term_label => pyIn (pyLower keyword) (pyLower term_label))
    | none => false

/-! ## Table rows -/

/-- Python `'<br>'.join(values)`. -/
def joinBr (values : List String) : String := String.intercalate "<br>" values

/-- The `table_data` dictionary: five keyed lists, one entry appended per
rendered annotation. -/
structure TableData where
  image : List String
  title : List String
  tags : List String
  notes : List String
  line_color : List String
deriving DecidableEq

/-- The empty `table_data` dictionary both notebooks start from. -/
def emptyTable : TableData := ⟨[], [], [], [], []⟩

/-- The Title cell: `'<br>'.join(fields['title']['en']['values'])` when the
`title` field exists, the empty string otherwise. -/
def titleCell (fields : Fields) : String :=
  match fields.title with
  | some values => joinBr values
  | none => ""

/-- The Tags cell: the joined `term_label`s when the `tag` field exists,
the empty string otherwise. -/
def tagsCell (fields : Fields) : String :=
  match fields.tag with
  | some values => joinBr values
  | none => ""

/-- The Notes cell: joined note values when the `note` field exists, the empty
string otherwise. -/
def notesCell (fields : Fields) : String :=
  match fields.note with
  | some values => joinBr values
  | none => ""

/-- The Line Color cell: joined values when the `line_color` field exists, the
empty string otherwise. -/
def lineColorCell (fields : Fields) : String :=
  match fields.line_color with
  | some values => joinBr values
  | none => ""

/-- One annotation's appends to the five lists of `table_data`. -/
def appendRow (t : TableData) (imgCell : String) (fields : Fields) : TableData :=
  { image := t.image ++ [imgCell]
    title := t.title ++ [titleCell fields]
    tags := t.tags ++ [tagsCell fields]
    notes := t.notes ++ [notesCell fields]
    line_color := t.line_color ++ [lineColorCell fields] }

/-- The Image cell of one annotation: when `'<polygon' in selector`, extract
the points and crop (exceptions propagate), then render the crop with
`image_to_html(cropped_image, 250)`; otherwise the empty string.
`htmlOf` stands for `image_to_html` composed with `cv2.imencode`/base64,
which are external to the repository. -/
def buildAnnotationImageCell (htmlOf : Img → String) (image : Img) ( annotation : Annotation) :
    Except PyExn String :=
  if pyIn "<polygon" annotation.selector then
    match extract_polygon_points annotation.selector with
    | .error e => .error e
    | .ok points =>
      match crop_image image points with
      | .error e => .error e
      | .ok cropped_image => .ok (htmlOf cropped_image)
  else .ok ""

/-- The `for annotation in annotations` table loop of the single-annotation-set
notebook, with the accumulated `table_data`: every annotation unconditionally
appends one entry to each of the five lists (or the first exception aborts the
whole loop). -/
def buildTableSingleGo (htmlOf : Img → String) (image : Img) :
    List Annotation → TableData → Except PyExn TableData
  | [], table_data => .ok table_data
  | annotation :: rest, table_data =>
    match buildAnnotationImageCell htmlOf image annotation with
    | .error e => .error e
    | .ok imgCell => buildTableSingleGo htmlOf image rest (appendRow table_data imgCell annotation.fields)

/-- The single-annotation-set table builder (its notebook has one global
`image` shared by all annotations). -/
def buildTableSingle (htmlOf : Img → String) (image : Img) (annotations : List Annotation) :
    Except PyExn TableData :=
  buildTableSingleGo htmlOf image annotations emptyTable

/-! ## Keyword-search pipeline: image cache, table builder, traversal -/

/-- Python dict lookup on the image cache (an association list keyed by image
id, first match wins; an entry's value is `none` when `cv2.imdecode` returned
`None` for that image's bytes). -/
def lookupImg : List (Nat × Option Img) → Nat → Option (Option Img)
  | [], _ => none
  | entry :: rest, image_id =>
    if entry.1 == image_id then some entry.2 else lookupImg rest image_id

/-- The image cache loading loop of the keyword-search notebook.
`getImage id` models `GET /images/{id}` (giving the metadata's `iiif_url` on
status 200, `none` on a non-success status); `getInfo url` models the
`info.json` call (giving `(width, height)` on 200); `fetchImage url w h`
models `load_image_from_url` on the full-size URL, whose result is the decoded
image or `None` — it is stored in the cache either way, because
`load_image_from_url` performs no status or decode check. -/
def cacheStep (getImage : Nat → Option String) (getInfo : String → Option (Nat × Nat))
    (fetchImage : String → Nat → Nat → Option Img) (images : List (Nat × Option Img))
    ( annotation : Annotation) : List (Nat × Option Img) :=
  if (lookupImg images annotation.image_id).isSome then images
  else
    match getImage annotation.image_id with
    | none => images
    | some iiif_url =>
      match getInfo iiif_url with
      | none => images
      | some wh => images ++ [( annotation.image_id, fetchImage iiif_url wh.1 wh.2)]

/-- The whole cache loading loop, starting from the empty dict `images = {}`. -/
def buildImages (getImage : Nat → Option String) (getInfo : String → Option (Nat × Nat))
    (fetchImage : String → Nat → Nat → Option Img) (results : List Annotation) :
    List (Nat × Option Img) :=
  results.foldl (cacheStep getImage getInfo fetchImage) []

/-- The `for annotation in results` table loop of the keyword-search notebook.
`images[annotation['image_id']]` is an unguarded dict lookup (KeyError when the
key is absent); when the stored image is `None` the `if image is not None`
guard skips the annotation entirely, appending nothing to any column. -/
def buildTableKSGo (htmlOf : Img → String) (images : List (Nat × Option Img)) :
    List Annotation → TableData → Except PyExn TableData
  | [], table_data => .ok table_data
  | annotation :: rest, table_data =>
    match lookupImg images annotation.image_id with
    | none => .error .keyError
    | some none => buildTableKSGo htmlOf images rest table_data
    | some (some image) =>
      match buildAnnotationImageCell htmlOf image annotation with
      | .error e => .error e
      | .ok imgCell => buildTableKSGo htmlOf images rest (appendRow table_data imgCell annotation.fields)

/-- The keyword-search table builder (the notebook guards the loop with
`if len(results) > 0`). -/
def buildTableKS (htmlOf : Img → String) (results : List Annotation)
    (images : List (Nat × Option Img)) : Except PyExn TableData :=
  if results.length > 0 then buildTableKSGo htmlOf images results emptyTable
  else .ok emptyTable

/-- An annotation of `results` whose cached image is present and not `None` —
exactly the ones for which the keyword-search table loop emits a row. -/
def imageKept (images : List (Nat × Option Img)) ( annotation : Annotation) : Bool :=
  match lookupImg images annotation.image_id with
  | some (some _) => true
  | _ => false

/-- The listing endpoints the keyword-search traversal calls, with image sets
and annotation sets reduced to the `id` the code reads from them.  A `none`
result models a non-success HTTP status (the guarded `response.json()` is then
never evaluated). -/
structure IawApi where
  listImageSets : Option (List Nat)
  listAnnotationSets : Nat → Option (List Nat)
  listAnnotations : Nat → Option (List Annotation)

/-- The keyword-search traversal: nested loops over image sets, annotation
sets and annotations, each level guarded by `if response.status_code == 200`,
appending to `results` every annotation that contains the keyword. -/
def searchTraversal (api : IawApi) (keyword : String) : List Annotation :=
  match api.listImageSets with
  | none => []
  | some image_sets =>
    image_sets.foldl (fun results image_set_id =>
      match api.listAnnotationSets image_set_id with
      | none => results
      | some annotation_sets =>
        annotation_sets.foldl (fun results annotation_set_id =>
          match api.listAnnotations annotation_set_id with
          | none => results
          | some annotations =>
            annotations.foldl (fun results annotation =>
              if annotation_contains_keyword annotation keyword then results ++ [ annotation]
              else results) results) results) []

/-- The spec-side reading of one image-set branch of the traversal: a failed
annotation-set listing yields nothing for the branch; otherwise every
annotation of every annotation set of the branch passes through the keyword
filter. -/
def branchAnnotations (api : IawApi) (keyword : String) (image_set_id : Nat) : List Annotation :=
  ((api.listAnnotationSets image_set_id).getD []).flatMap (fun annotation_set_id =>
    ((api.listAnnotations annotation_set_id).getD []).filter (fun annotation =>
      annotation_contains_keyword annotation keyword))

/-- The payload of an IAW response once JSON-decoded: either the expected list
of annotations or the error object the server returns on failure. -/
inductive ApiPayload where
  | annList (annotations : List Annotation)
  | errObj (message : String)
deriving DecidableEq

/-- An HTTP response: status code plus decoded JSON payload. -/
structure HttpResponse where
  status : Nat
  payload : ApiPayload
deriving DecidableEq

/-- The single-annotation-set notebook's `annotations = response.json()`:
no status check of any kind, the payload is used whatever the status was. -/
def singleSetAnnotationsJson (response : HttpResponse) : ApiPayload :=
  response.payload

/-- Iterating the fetched value as a list of annotations.  When the call
failed the payload is the server's error object (a JSON dict); `for annotation
in annotations` then iterates its keys and `annotation['target']` indexes a
string, raising `TypeError` downstream. -/
def iterAnnotations : ApiPayload → Except PyExn (List Annotation)
  | .annList annotations => .ok annotations
  | .errObj _ => .error .typeError

/-- The single-annotation-set pipeline from the annotations fetch to the
table: use the response's payload without any status check, then run the table
loop. -/
def runSingleSetTable (htmlOf : Img → String) (image : Img) (response : HttpResponse) :
    Except PyExn TableData :=
  match iterAnnotations (singleSetAnnotationsJson response) with
  | .error e => .error e
  | .ok annotations => buildTableSingle htmlOf image annotations

/-! ## Concrete test inputs -/

/-- A uniform white 20 × 20 × 3 image (every channel 255). -/
def white20 : Img := List.replicate 20 (List.replicate 20 (List.replicate 3 255))

/-- The 10 × 10 square polygon of the spec's examples. -/
def squarePoly : List (Int × Int) := [(0, 0), (10, 0), (10, 10), (0, 10)]

/-- A 10 × 10 × 3 all-white crop. -/
def crop10 : Img := List.replicate 10 (List.replicate 10 (List.replicate 3 255))

/-- A square polygon lying entirely outside a 20 × 20 image. -/
def outsidePoly : List (Int × Int) := [(30, 30), (40, 30), (40, 40), (30, 40)]

/-- The spec's example selector (no trailing space in the points value). -/
def sel0 : String := "<svg><polygon points=\"0,0 10,0 10,10 0,10\"></polygon></svg>"

/-- The documented selector format taken literally: a trailing space before
the closing quote of the points value. -/
def selTrailing : String := "<svg><polygon points=\"0,0 10,0 \"></polygon></svg>"

/-- A malformed selector without quote delimiters. -/
def selNoQuotes : String := "<svg><polygon points=0,0 10,10></polygon></svg>"

/-- A malformed selector with non-numeric coordinates. -/
def selNonNumeric : String := "<svg><polygon points=\"a,b\"></polygon></svg>"

/-- A malformed selector with a token that does not split into two
comma-separated halves. -/
def selBadPair : String := "<svg><polygon points=\"0,0 5\"></polygon></svg>"

/-- An annotation titled `Red Robe` (the spec's keyword-filter example). -/
def redRobeAnn : Annotation := ⟨1, "", ⟨some ["Red Robe"], none, none, none⟩⟩

/-- An annotation with neither a `title` nor a `tag` field. -/
def bareAnn : Annotation := ⟨2, "", ⟨none, none, none, none⟩⟩

/-- An annotation without polygon selector and with no metadata fields. -/
def plainAnn : Annotation := ⟨3, "<svg><circle></circle></svg>", ⟨none, none, none, none⟩⟩

/-- An annotation (target image 7) used for the keyword-pipeline tests. -/
def ann7 : Annotation := ⟨7, "<svg><circle></circle></svg>", ⟨some ["A"], none, none, none⟩⟩

/-- An image cache in which image 7 is stored as `None` (decode failure). -/
def imagesNone7 : List (Nat × Option Img) := [(7, none)]

/-- An image cache holding a decoded image for image 7. -/
def imagesSome7 : List (Nat × Option Img) := [(7, some white20)]

/-- A tiny API: image sets `[1, 2]`; listing annotation sets of image set 1
fails (non-success status); image set 2 has annotation set 5 whose annotations
are `redRobeAnn` and `bareAnn`. -/
def apiW : IawApi :=
  ⟨some [1, 2],
   fun image_set_id => if image_set_id == 2 then some [5] else none,
   fun annotation_set_id => if annotation_set_id == 5 then some [redRobeAnn, bareAnn] else none⟩

/-! ## Helper lemmas: substrings -/

/-- The needle string occurs as a contiguous substring of the haystack. -/
def SubstrOf (needle haystack : String) : Prop :=
  ∃ pre post, haystack.toList = pre ++ needle.toList ++ post

theorem leadsWith_iff : ∀ (n h : List Char), leadsWith n h = true ↔ ∃ rest, h = n ++ rest
  | [], h => by simp [leadsWith]
  | a :: ns, [] => by simp [leadsWith]
  | a :: ns, c :: cs => by
    simp only [leadsWith, Bool.and_eq_true, beq_iff_eq]
    constructor
    · rintro ⟨rfl, hl⟩
      obtain ⟨rest, rfl⟩ := (leadsWith_iff ns cs).1 hl
      exact ⟨rest, rfl⟩
    · rintro ⟨rest, heq⟩
      rw [List.cons_append] at heq
      injection heq with h1 h2
      exact ⟨h1.symm, (leadsWith_iff ns cs).2 ⟨rest, h2⟩⟩

theorem containsSeq_iff : ∀ (n h : List Char), containsSeq n h = true ↔ ∃ pre post, h = pre ++ n ++ post
  | n, [] => by
    simp only [containsSeq, List.isEmpty_iff]
    constructor
    · rintro rfl
      exact ⟨[], [], rfl⟩
    · rintro ⟨pre, post, hp⟩
      rcases List.append_eq_nil.mp hp.symm with ⟨h1, -⟩
      exact (List.append_eq_nil.mp h1).2
  | n, c :: rest => by
    simp only [containsSeq, Bool.or_eq_true]
    rw [leadsWith_iff, containsSeq_iff n rest]
    constructor
    · rintro (⟨r, hr⟩ | ⟨pre, post, hp⟩)
      · exact ⟨[], r, by simp [hr]⟩
      · exact ⟨c :: pre, post, by simp [hp]⟩
    · rintro ⟨pre, post, hp⟩
      match pre, hp with
      | [], hp => exact .inl ⟨post, by simpa using hp⟩
      | d :: pre', hp => 
        rw [List.cons_append, List.cons_append] at hp
        injection hp with h1 h2
        exact .inr ⟨pre', post, h2⟩

theorem pyIn_iff (needle haystack : String) : pyIn needle haystack = true ↔ SubstrOf needle haystack :=
  containsSeq_iff _ _

theorem substrOf_empty (s : String) : SubstrOf "" s := ⟨[], s.toList, rfl⟩

theorem substrOf_pyLower_empty (s : String) : SubstrOf (pyLower "") s := ⟨[], s.toList, rfl⟩

/-! ## Helper lemmas: folded minima and maxima -/

/-- The value `m` is a least element of the list `l`. -/
def isLeastOf (m : Nat) (l : List Nat) : Prop := m ∈ l ∧ ∀ b ∈ l, m ≤ b

/-- The value `m` is a greatest element of the list `l`. -/
def isGreatestOf (m : Nat) (l : List Nat) : Prop := m ∈ l ∧ ∀ b ∈ l, b ≤ m

theorem foldl_min_mem : ∀ (l : List Nat) (a : Nat), l.foldl min a ∈ a :: l
  | [], a => by simp
  | b :: l, a => by
    have ih := foldl_min_mem l (min a b)
    simp only [List.foldl_cons]
    rcases List.mem_cons.mp ih with h | h
    · rcases Nat.le_total a b with hab | hab
      · rw [h, min_eq_left hab]
        exact List.mem_cons_self _ _
      · rw [h, min_eq_right hab]
        exact List.mem_cons_of_mem _ (List.mem_cons_self _ _)
    · exact List.mem_cons_of_mem _ (List.mem_cons_of_mem _ h)

theorem foldl_min_le : ∀ (l : List Nat) (a b : Nat), b ∈ a :: l → l.foldl min a ≤ b
  | [], a, b => by
    intro h
    rcases List.mem_cons.mp h with rfl | h
    · exact Nat.le_refl _
    · simp at h
  | c :: l, a, b => by
    intro h
    simp only [List.foldl_cons]
    rcases List.mem_cons.mp h with rfl | h'
    · exact le_trans (foldl_min_le l _ _ (List.mem_cons_self _ _)) (min_le_left _ _)
    · rcases List.mem_cons.mp h' with rfl | h''
      · exact le_trans (foldl_min_le l _ _ (List.mem_cons_self _ _)) (min_le_right _ _)
      · exact foldl_min_le l _ _ (List.mem_cons_of_mem _ h'')

theorem foldl_max_mem : ∀ (l : List Nat) (a : Nat), l.foldl max a ∈ a :: l
  | [], a => by simp
  | b :: l, a => by
    have ih := foldl_max_mem l (max a b)
    simp only [List.foldl_cons]
    rcases List.mem_cons.mp ih with h | h
    · rcases Nat.le_total a b with hab | hab
      · rw [h, max_eq_right hab]
        exact List.mem_cons_of_mem _ (List.mem_cons_self _ _)
      · rw [h, max_eq_left hab]
        exact List.mem_cons_self _ _
    · exact List.mem_cons_of_mem _ (List.mem_cons_of_mem _ h)

theorem foldl_le_max : ∀ (l : List Nat) (a b : Nat), b ∈ a :: l → b ≤ l.foldl max a
  | [], a, b => by
    intro h
    rcases List.mem_cons.mp h with rfl | h
    · exact Nat.le_refl _
    · simp at h
  | c :: l, a, b => by
    intro h
    simp only [List.foldl_cons]
    rcases List.mem_cons.mp h with rfl | h'
    · exact le_trans (le_max_left _ _) (foldl_le_max l _ _ (List.mem_cons_self _ _))
    · rcases List.mem_cons.mp h' with rfl | h''
      · exact le_trans (le_max_right _ _) (foldl_le_max l _ _ (List.mem_cons_self _ _))
      · exact foldl_le_max l _ _ (List.mem_cons_of_mem _ h'')

theorem foldl_minFst_least (p : Nat × Nat) (ps : List (Nat × Nat)) :
    isLeastOf (ps.foldl (fun m q => min m q.1) p.1) ((p :: ps).map Prod.fst) := by
  rw [List.map_cons, ← List.foldl_map]
  exact ⟨foldl_min_mem _ _, fun b hb => foldl_min_le _ _ _ hb⟩

theorem foldl_maxFst_greatest (p : Nat × Nat) (ps : List (Nat × Nat)) :
    isGreatestOf (ps.foldl (fun m q => max m q.1) p.1) ((p :: ps).map Prod.fst) := by
  rw [List.map_cons, ← List.foldl_map]
  exact ⟨foldl_max_mem _ _, fun b hb => foldl_le_max _ _ _ hb⟩

theorem foldl_minSnd_least (p : Nat × Nat) (ps : List (Nat × Nat)) :
    isLeastOf (ps.foldl (fun m q => min m q.2) p.2) ((p :: ps).map Prod.snd) := by
  rw [List.map_cons, ← List.foldl_map]
  exact ⟨foldl_min_mem _ _, fun b hb => foldl_min_le _ _ _ hb⟩

theorem foldl_maxSnd_greatest (p : Nat × Nat) (ps : List (Nat × Nat)) :
    isGreatestOf (ps.foldl (fun m q => max m q.2) p.2) ((p :: ps).map Prod.snd) := by
  rw [List.map_cons, ← List.foldl_map]
  exact ⟨foldl_max_mem _ _, fun b hb => foldl_le_max _ _ _ hb⟩

/-! ## Helper lemmas: `crop_image` -/

theorem nzCoords_fst_lt {img : Img} {q : Nat × Nat} (h : q ∈ nzCoords img) :
    q.1 < img.length := by
  unfold nzCoords at h
  rw [List.mem_flatMap] at h
  obtain ⟨yrow, hy, hq⟩ := h
  obtain ⟨i, row⟩ := yrow
  rw [List.mem_flatMap] at hq
  obtain ⟨xpx, hx, hq2⟩ := hq
  rw [List.mem_filterMap] at hq2
  obtain ⟨v, hv, hveq⟩ := hq2
  by_cases h0 : v ≠ 0
  · rw [if_pos h0] at hveq
    injection hveq with h1
    subst h1
    exact (List.mem_enum hy).1
  · rw [if_neg h0] at hveq
    cases hveq

theorem crop_image_eq_cons {image : Img} {points : List (Int × Int)} {p : Nat × Nat}
    {ps : List (Nat × Nat)} (h : nzCoords (maskedImage image points) = p :: ps) :
    crop_image image points = .ok (bboxSlice (maskedImage image points)
      (ps.foldl (fun m q => min m q.1) p.1) (ps.foldl (fun m q => max m q.1) p.1)
      (ps.foldl (fun m q => min m q.2) p.2) (ps.foldl (fun m q => max m q.2) p.2)) := by
  unfold crop_image
  rw [h]

theorem crop_image_eq_nil {image : Img} {points : List (Int × Int)}
    (h : nzCoords (maskedImage image points) = []) :
    crop_image image points = .error .valueError := by
  unfold crop_image
  rw [h]

theorem bboxSlice_length {M : Img} (ymin ymax xmin xmax : Nat) (h : ymax ≤ M.length) :
    (bboxSlice M ymin ymax xmin xmax).length = ymax - ymin := by
  simp only [bboxSlice, List.length_map, List.length_take, List.length_drop]
  omega

/-! ## Helper lemmas: the selector parser -/

/-- A token that the parsing loop accepts: it splits into exactly two
comma-separated halves, both parseable by `float()`. -/
def tokenOk (t : String) : Bool :=
  match parsePoint t with
  | .ok _ => true
  | .error _ => false

theorem parsePointTokens_ok : ∀ (ts : List String), (∀ t ∈ ts, tokenOk t = true) →
    ∃ ps, parsePointTokens ts = .ok ps ∧ ps.length = ts.length
  | [], _ => ⟨[], rfl, rfl⟩
  | t :: ts, h => by
    have ht := h t (List.mem_cons_self _ _)
    unfold tokenOk at ht
    cases hp : parsePoint t with
    | error e => rw [hp] at ht; simp at ht
    | ok p =>
      obtain ⟨ps, hps, hlen⟩ := parsePointTokens_ok ts (fun u hu => h u (List.mem_cons_of_mem _ hu))
      refine ⟨p :: ps, ?_, by simp [hlen]⟩
      unfold parsePointTokens
      rw [hp, hps]

theorem parsePoint_error {t : String} {e : PyExn} (h : parsePoint t = .error e) :
    e = .valueError := by
  unfold parsePoint at h
  split at h
  · split at h
    · simp at h
    · injection h with h1
      exact h1.symm
  · injection h with h1
    exact h1.symm

theorem parsePointTokens_error : ∀ {ts : List String} {e : PyExn},
    parsePointTokens ts = .error e → e = .valueError
  | [], e, h => by simp [parsePointTokens] at h
  | t :: ts, e, h => by
    unfold parsePointTokens at h
    cases hp : parsePoint t with
    | error e' =>
      rw [hp] at h
      injection h with h1
      subst h1
      exact parsePoint_error hp
    | ok p =>
      rw [hp] at h
      cases hr : parsePointTokens ts with
      | error e2 =>
        rw [hr] at h
        injection h with h1
        subst h1
        exact parsePointTokens_error hr
      | ok ps =>
        rw [hr] at h
        simp at h

/-! ## Helper lemmas: the keyword filter -/

theorem annotation_contains_keyword_iff (a : Annotation) (kw : String) :
    annotation_contains_keyword a kw = true ↔
      ((∃ vs, a.fields.title = some vs ∧ ∃ v ∈ vs, SubstrOf (pyLower kw) (pyLower v)) ∨
       (∃ ts, a.fields.tag = some ts ∧ ∃ v ∈ ts, SubstrOf (pyLower kw) (pyLower v))) := by
  cases ht : a.fields.title with
  | none =>
    cases hg : a.fields.tag with
    | none => simp [annotation_contains_keyword, ht, hg]
    | some ts =>
      simp [annotation_contains_keyword, ht, hg, List.any_eq_true, pyIn_iff]
  | some vs =>
    cases hg : a.fields.tag with
    | none =>
      simp [annotation_contains_keyword, ht, hg, List.any_eq_true, pyIn_iff]
    | some ts =>
      simp [annotation_contains_keyword, ht, hg, List.any_eq_true, pyIn_iff]

/-! ## Helper lemmas: the table builders -/

theorem buildTableSingleGo_ok (htmlOf : Img → String) (image : Img) :
    ∀ (l : List Annotation) (acc t : TableData),
      buildTableSingleGo htmlOf image l acc = .ok t →
      t.title = acc.title ++ l.map (fun a => titleCell a.fields) ∧
      t.tags = acc.tags ++ l.map (fun a => tagsCell a.fields) ∧
      t.notes = acc.notes ++ l.map (fun a => notesCell a.fields) ∧
      t.line_color = acc.line_color ++ l.map (fun a => lineColorCell a.fields) ∧
      t.image.length = acc.image.length + l.length
  | [], acc, t, h => by
    unfold buildTableSingleGo at h
    injection h with h1
    subst h1
    simp
  | a :: l, acc, t, h => by
    unfold buildTableSingleGo at h
    cases hc : buildAnnotationImageCell htmlOf image a with
    | error e => rw [hc] at h; simp at h
    | ok cell =>
      rw [hc] at h
      obtain ⟨h1, h2, h3, h4, h5⟩ := buildTableSingleGo_ok htmlOf image l _ t h
      simp only [appendRow] at h1 h2 h3 h4 h5
      refine ⟨?_, ?_, ?_, ?_, ?_⟩
      · simp [h1, List.append_assoc]
      · simp [h2, List.append_assoc]
      · simp [h3, List.append_assoc]
      · simp [h4, List.append_assoc]
      · simp [h5]; omega

theorem buildTableKSGo_cons_none (htmlOf : Img → String) (images : List (Nat × Option Img))
    (a : Annotation) (l : List Annotation) (acc : TableData)
    (hl : lookupImg images a.image_id = none) :
    buildTableKSGo htmlOf images (a :: l) acc = .error .keyError := by
  unfold buildTableKSGo
  rw [hl]

theorem buildTableKSGo_cons_skip (htmlOf : Img → String) (images : List (Nat × Option Img))
    (a : Annotation) (l : List Annotation) (acc : TableData)
    (hl : lookupImg images a.image_id = some none) :
    buildTableKSGo htmlOf images (a :: l) acc = buildTableKSGo htmlOf images l acc := by
  conv_lhs => unfold buildTableKSGo
  rw [hl]

theorem buildTableKSGo_cons_rowError (htmlOf : Img → String) (images : List (Nat × Option Img))
    (a : Annotation) (l : List Annotation) (acc : TableData) (image : Img) (e : PyExn)
    (hl : lookupImg images a.image_id = some (some image))
    (hc : buildAnnotationImageCell htmlOf image a = .error e) :
    buildTableKSGo htmlOf images (a :: l) acc = .error e := by
  unfold buildTableKSGo
  rw [hl]
  show (match buildAnnotationImageCell htmlOf image a with
    | .error e => (.error e : Except PyExn TableData)
    | .ok imgCell => buildTableKSGo htmlOf images l (appendRow acc imgCell a.fields)) = .error e
  rw [hc]

theorem buildTableKSGo_cons_row (htmlOf : Img → String) (images : List (Nat × Option Img))
    (a : Annotation) (l : List Annotation) (acc : TableData) (image : Img) (cell : String)
    (hl : lookupImg images a.image_id = some (some image))
    (hc : buildAnnotationImageCell htmlOf image a = .ok cell) :
    buildTableKSGo htmlOf images (a :: l) acc =
      buildTableKSGo htmlOf images l (appendRow acc cell a.fields) := by
  conv_lhs => unfold buildTableKSGo
  rw [hl]
  show (match buildAnnotationImageCell htmlOf image a with
    | .error e => (.error e : Except PyExn TableData)
    | .ok imgCell => buildTableKSGo htmlOf images l (appendRow acc imgCell a.fields)) = _
  rw [hc]

theorem buildTableKSGo_ok (htmlOf : Img → String) (images : List (Nat × Option Img)) :
    ∀ (l : List Annotation) (acc t : TableData),
      buildTableKSGo htmlOf images l acc = .ok t →
      t.title = acc.title ++ (l.filter (imageKept images)).map (fun a => titleCell a.fields) ∧
      t.tags = acc.tags ++ (l.filter (imageKept images)).map (fun a => tagsCell a.fields) ∧
      t.notes = acc.notes ++ (l.filter (imageKept images)).map (fun a => notesCell a.fields) ∧
      t.line_color = acc.line_color ++
        (l.filter (imageKept images)).map (fun a => lineColorCell a.fields) ∧
      t.image.length = acc.image.length + (l.filter (imageKept images)).length
  | [], acc, t, h => by
    unfold buildTableKSGo at h
    injection h with h1
    subst h1
    simp
  | a :: l, acc, t, h => by
    cases hl : lookupImg images a.image_id with
    | none =>
      rw [buildTableKSGo_cons_none htmlOf images a l acc hl] at h
      simp at h
    | some oi =>
      cases oi with
      | none =>
        have hkept : imageKept images a = false := by
          unfold imageKept
          rw [hl]
        rw [buildTableKSGo_cons_skip htmlOf images a l acc hl] at h
        obtain ⟨h1, h2, h3, h4, h5⟩ := buildTableKSGo_ok htmlOf images l acc t h
        simp only [List.filter_cons, hkept, Bool.false_eq_true, if_false]
        exact ⟨h1, h2, h3, h4, h5⟩
      | some image =>
        have hkept : imageKept images a = true := by
          unfold imageKept
          rw [hl]
        cases hc : buildAnnotationImageCell htmlOf image a with
        | error e =>
          rw [buildTableKSGo_cons_rowError htmlOf images a l acc image e hl hc] at h
          simp at h
        | ok cell =>
          rw [buildTableKSGo_cons_row htmlOf images a l acc image cell hl hc] at h
          obtain ⟨h1, h2, h3, h4, h5⟩ := buildTableKSGo_ok htmlOf images l _ t h
          simp only [appendRow] at h1 h2 h3 h4 h5
          simp only [List.filter_cons, hkept, if_true]
          refine ⟨?_, ?_, ?_, ?_, ?_⟩
          · simp [h1, List.append_assoc]
          · simp [h2, List.append_assoc]
          · simp [h3, List.append_assoc]
          · simp [h4, List.append_assoc]
          · simp [h5]; omega

theorem buildTableKSGo_not_ok (htmlOf : Img → String) (images : List (Nat × Option Img)) :
    ∀ (l : List Annotation) (acc : TableData),
      (∃ a ∈ l, lookupImg images a.image_id = none) →
      ∀ t, buildTableKSGo htmlOf images l acc ≠ .ok t
  | [], acc, h => by simp at h
  | a :: l, acc, h => by
    intro t
    cases hl : lookupImg images a.image_id with
    | none =>
      rw [buildTableKSGo_cons_none htmlOf images a l acc hl]
      simp
    | some oi =>
      obtain ⟨b, hb, hbl⟩ := h
      rcases List.mem_cons.mp hb with rfl | hb'
      · rw [hl] at hbl
        simp at hbl
      · cases oi with
        | none =>
          rw [buildTableKSGo_cons_skip htmlOf images a l acc hl]
          exact buildTableKSGo_not_ok htmlOf images l acc ⟨b, hb', hbl⟩ t
        | some image =>
          cases hc : buildAnnotationImageCell htmlOf image a with
          | error e =>
            rw [buildTableKSGo_cons_rowError htmlOf images a l acc image e hl hc]
            simp
          | ok cell =>
            rw [buildTableKSGo_cons_row htmlOf images a l acc image cell hl hc]
            exact buildTableKSGo_not_ok htmlOf images l _ ⟨b, hb', hbl⟩ t

/-! ## Helper lemmas: the image cache loader -/

theorem lookupImg_append (images₁ images₂ : List (Nat × Option Img)) (image_id : Nat)
    (h : lookupImg images₁ image_id = none) :
    lookupImg (images₁ ++ images₂) image_id = lookupImg images₂ image_id := by
  induction images₁ with
  | nil => rfl
  | cons p l ih =>
    rw [List.cons_append]
    show (if p.1 == image_id then some p.2 else lookupImg (l ++ images₂) image_id) = _
    have h' : (if p.1 == image_id then some p.2 else lookupImg l image_id) = none := h
    by_cases hp : (p.1 == image_id) = true
    · rw [if_pos hp] at h'
      cases h'
    · rw [if_neg hp] at h'
      rw [if_neg hp]
      exact ih h'

theorem cacheStep_cached (getImage : Nat → Option String) (getInfo : String → Option (Nat × Nat))
    (fetchImage : String → Nat → Nat → Option Img) (images : List (Nat × Option Img))
    ( annotation : Annotation) (hin : (lookupImg images annotation.image_id).isSome = true) :
    cacheStep getImage getInfo fetchImage images annotation = images := by
  unfold cacheStep
  rw [if_pos hin]

theorem cacheStep_noMeta (getImage : Nat → Option String) (getInfo : String → Option (Nat × Nat))
    (fetchImage : String → Nat → Nat → Option Img) (images : List (Nat × Option Img))
    ( annotation : Annotation) (hin : ¬(lookupImg images annotation.image_id).isSome = true)
    (hg : getImage annotation.image_id = none) :
    cacheStep getImage getInfo fetchImage images annotation = images := by
  unfold cacheStep
  rw [if_neg hin, hg]

theorem cacheStep_noInfo (getImage : Nat → Option String) (getInfo : String → Option (Nat × Nat))
    (fetchImage : String → Nat → Nat → Option Img) (images : List (Nat × Option Img))
    ( annotation : Annotation) (iiif_url : String)
    (hin : ¬(lookupImg images annotation.image_id).isSome = true)
    (hg : getImage annotation.image_id = some iiif_url) (hi : getInfo iiif_url = none) :
    cacheStep getImage getInfo fetchImage images annotation = images := by
  unfold cacheStep
  rw [if_neg hin, hg]
  show (match getInfo iiif_url with
    | none => images
    | some wh => images ++ [( annotation.image_id, fetchImage iiif_url wh.1 wh.2)]) = images
  rw [hi]

theorem cacheStep_insert (getImage : Nat → Option String) (getInfo : String → Option (Nat × Nat))
    (fetchImage : String → Nat → Nat → Option Img) (images : List (Nat × Option Img))
    ( annotation : Annotation) (iiif_url : String) (wh : Nat × Nat)
    (hin : ¬(lookupImg images annotation.image_id).isSome = true)
    (hg : getImage annotation.image_id = some iiif_url) (hi : getInfo iiif_url = some wh) :
    cacheStep getImage getInfo fetchImage images annotation =
      images ++ [( annotation.image_id, fetchImage iiif_url wh.1 wh.2)] := by
  unfold cacheStep
  rw [if_neg hin, hg]
  show (match getInfo iiif_url with
    | none => images
    | some wh => images ++ [( annotation.image_id, fetchImage iiif_url wh.1 wh.2)]) = _
  rw [hi]

theorem cacheStep_lookup_none (getImage : Nat → Option String)
    (getInfo : String → Option (Nat × Nat)) (fetchImage : String → Nat → Nat → Option Img)
    (image_id : Nat) (hmiss : ∀ u, getImage image_id = some u → getInfo u = none)
    (images : List (Nat × Option Img)) ( annotation : Annotation)
    (h : lookupImg images image_id = none) :
    lookupImg (cacheStep getImage getInfo fetchImage images annotation) image_id = none := by
  by_cases hin : (lookupImg images annotation.image_id).isSome = true
  · rw [cacheStep_cached getImage getInfo fetchImage images annotation hin]
    exact h
  · cases hg : getImage annotation.image_id with
    | none =>
      rw [cacheStep_noMeta getImage getInfo fetchImage images annotation hin hg]
      exact h
    | some iiif_url =>
      cases hi : getInfo iiif_url with
      | none =>
        rw [cacheStep_noInfo getImage getInfo fetchImage images annotation iiif_url hin hg hi]
        exact h
      | some wh =>
        rw [cacheStep_insert getImage getInfo fetchImage images annotation iiif_url wh hin hg hi]
        rw [lookupImg_append _ _ _ h]
        have hne : ( annotation.image_id == image_id) = false := by
          by_cases heq : annotation.image_id = image_id
          · subst heq
            rw [hmiss iiif_url hg] at hi
            cases hi
          · simp [heq]
        show (if annotation.image_id == image_id then
          some (fetchImage iiif_url wh.1 wh.2) else lookupImg [] image_id) = none
        rw [hne]
        rfl

theorem buildImages_lookup_none (getImage : Nat → Option String)
    (getInfo : String → Option (Nat × Nat)) (fetchImage : String → Nat → Nat → Option Img)
    (image_id : Nat) (hmiss : ∀ u, getImage image_id = some u → getInfo u = none)
    (results : List Annotation) :
    lookupImg (buildImages getImage getInfo fetchImage results) image_id = none := by
  unfold buildImages
  have hgen : ∀ (l : List Annotation) (images : List (Nat × Option Img)),
      lookupImg images image_id = none →
      lookupImg (l.foldl (cacheStep getImage getInfo fetchImage) images) image_id = none := by
    intro l
    induction l with
    | nil => intro images h; exact h
    | cons a l ih =>
      intro images h
      rw [List.foldl_cons]
      exact ih _ (cacheStep_lookup_none getImage getInfo fetchImage image_id hmiss images a h)
  exact hgen results [] rfl

/-! ## Helper lemmas: the traversal loops -/

theorem foldl_append_flatMap {α β : Type} (f : List β → α → List β) (g : α → List β)
    (hf : ∀ r a, f r a = r ++ g a) :
    ∀ (l : List α) (acc : List β), l.foldl f acc = acc ++ l.flatMap g
  | [], acc => by simp
  | a :: l, acc => by
    rw [List.foldl_cons, hf, foldl_append_flatMap f g hf l, List.flatMap_cons,
      List.append_assoc]

theorem foldl_filter_append {α : Type} (p : α → Bool) :
    ∀ (l : List α) (acc : List α),
      l.foldl (fun r a => if p a then r ++ [a] else r) acc = acc ++ l.filter p
  | [], acc => by simp
  | a :: l, acc => by
    simp only [List.foldl_cons, List.filter_cons]
    by_cases hp : p a = true
    · rw [if_pos hp, if_pos hp, foldl_filter_append p l]
      simp
    · rw [if_neg hp, if_neg hp, foldl_filter_append p l]

theorem searchTraversal_eq_flatMap (api : IawApi) (keyword : String) :
    searchTraversal api keyword =
      (api.listImageSets.getD []).flatMap (branchAnnotations api keyword) := by
  unfold searchTraversal
  cases hi : api.listImageSets with
  | none => simp
  | some image_sets =>
    simp only [Option.getD_some]
    have houter : ∀ (r : List Annotation) (image_set_id : Nat),
        (match api.listAnnotationSets image_set_id with
         | none => r
         | some annotation_sets =>
           annotation_sets.foldl (fun results annotation_set_id =>
             match api.listAnnotations annotation_set_id with
             | none => results
             | some annotations =>
               annotations.foldl (fun results annotation =>
                 if annotation_contains_keyword annotation keyword then results ++ [ annotation]
                 else results) results) r)
          = r ++ branchAnnotations api keyword image_set_id := by
      intro r image_set_id
      cases hs : api.listAnnotationSets image_set_id with
      | none => simp [branchAnnotations, hs]
      | some annotation_sets =>
        simp only [branchAnnotations, hs, Option.getD_some]
        have hmid : ∀ (r' : List Annotation) (annotation_set_id : Nat),
            (match api.listAnnotations annotation_set_id with
             | none => r'
             | some annotations =>
               annotations.foldl (fun results annotation =>
                 if annotation_contains_keyword annotation keyword then results ++ [ annotation]
                 else results) r')
              = r' ++ ((api.listAnnotations annotation_set_id).getD []).filter
                  (fun annotation => annotation_contains_keyword annotation keyword) := by
          intro r' annotation_set_id
          cases ha : api.listAnnotations annotation_set_id with
          | none => simp
          | some annotations => simp [foldl_filter_append]
        exact foldl_append_flatMap _ _ hmid annotation_sets r
    exact (foldl_append_flatMap _ _ houter image_sets []).trans (by simp)

/-! ## Claim theorems -/

/-- C1 (amended): for every image and polygon whose mask leaves at least one
non-zero pixel, `crop_image` returns the numpy half-open slice
`masked[ymin:ymax, xmin:xmax]` where `ymin`/`ymax` (`xmin`/`xmax`) are the
least and greatest row (column) indices holding a non-zero value — so the
extreme row `ymax` and extreme column `xmax` are *excluded*, not included; on
the uniform 20×20 white image with the square polygon
`[[0,0],[10,0],[10,10],[0,10]]` the crop is 10×10 (the polygon's bounding box)
and entirely non-zero. -/
theorem crop_halfOpen_bbox :
    (∀ (image : Img) (points : List (Int × Int)),
       nzCoords (maskedImage image points) ≠ [] →
       ∃ ymin ymax xmin xmax : Nat,
         isLeastOf ymin ((nzCoords (maskedImage image points)).map Prod.fst) ∧
         isGreatestOf ymax ((nzCoords (maskedImage image points)).map Prod.fst) ∧
         isLeastOf xmin ((nzCoords (maskedImage image points)).map Prod.snd) ∧
         isGreatestOf xmax ((nzCoords (maskedImage image points)).map Prod.snd) ∧
         crop_image image points =
           .ok (bboxSlice (maskedImage image points) ymin ymax xmin xmax) ∧
         (bboxSlice (maskedImage image points) ymin ymax xmin xmax).length = ymax - ymin) ∧
    crop_image white20 squarePoly = .ok crop10 ∧
    crop10.length = 10 ∧ (∀ row ∈ crop10, row.length = 10) ∧
    (∀ row ∈ crop10, ∀ px ∈ row, ∀ v ∈ px, 0 < v) := by
  refine ⟨?_, by decide, by decide, by decide, by decide⟩
  intro image points hne
  obtain ⟨p, ps, hcons⟩ := List.exists_cons_of_ne_nil hne
  refine ⟨ps.foldl (fun m q => min m q.1) p.1, ps.foldl (fun m q => max m q.1) p.1,
    ps.foldl (fun m q => min m q.2) p.2, ps.foldl (fun m q => max m q.2) p.2,
    ?_, ?_, ?_, ?_, ?_, ?_⟩
  · rw [hcons]
    exact foldl_minFst_least p ps
  · rw [hcons]
    exact foldl_maxFst_greatest p ps
  · rw [hcons]
    exact foldl_minSnd_least p ps
  · rw [hcons]
    exact foldl_maxSnd_greatest p ps
  · exact crop_image_eq_cons hcons
  · have hmem : ps.foldl (fun m q => max m q.1) p.1 ∈ (p :: ps).map Prod.fst :=
      (foldl_maxFst_greatest p ps).1
    obtain ⟨q, hq, hqeq⟩ := List.mem_map.mp hmem
    have hlt : q.1 < (maskedImage image points).length := by
      refine nzCoords_fst_lt ?_
      rw [hcons]
      exact hq
    have hle : ps.foldl (fun m q => max m q.1) p.1 ≤ (maskedImage image points).length := by
      rw [← hqeq]
      exact le_of_lt hlt
    exact bboxSlice_length _ _ _ _ hle

/-- C1, counterexample to the claim as stated: on the uniform 20×20 white
image with the square polygon, the greatest non-zero row of the masked image
is row 10 (and the least is 0), so the tight bounding box spans 11 rows with
both extremes included — yet the returned crop has only 10 rows: the extreme
row is *not* part of the crop. -/
theorem crop_extreme_row_excluded :
    crop_image white20 squarePoly = .ok crop10 ∧
    crop10.length = 10 ∧
    isGreatestOf 10 ((nzCoords (maskedImage white20 squarePoly)).map Prod.fst) ∧
    isLeastOf 0 ((nzCoords (maskedImage white20 squarePoly)).map Prod.fst) := by
  refine ⟨by decide, by decide, ?_, ?_⟩
  · unfold isGreatestOf
    decide
  · unfold isLeastOf
    decide

/-- C1, witness: the general half-open-slice statement instantiated on the
20×20 white image and the square polygon. -/
theorem crop_halfOpen_bbox_witness :
    ∃ ymin ymax xmin xmax : Nat,
      isLeastOf ymin ((nzCoords (maskedImage white20 squarePoly)).map Prod.fst) ∧
      isGreatestOf ymax ((nzCoords (maskedImage white20 squarePoly)).map Prod.fst) ∧
      isLeastOf xmin ((nzCoords (maskedImage white20 squarePoly)).map Prod.snd) ∧
      isGreatestOf xmax ((nzCoords (maskedImage white20 squarePoly)).map Prod.snd) ∧
      crop_image white20 squarePoly =
        .ok (bboxSlice (maskedImage white20 squarePoly) ymin ymax xmin xmax) ∧
      (bboxSlice (maskedImage white20 squarePoly) ymin ymax xmin xmax).length = ymax - ymin :=
  crop_halfOpen_bbox.1 white20 squarePoly (by decide)

/-- C3: when the masked image has no non-zero pixel (zero-area polygon or a
polygon entirely outside the image), `crop_image` raises the built-in
`ValueError` coming from `np.min` over an empty array — it never returns a
buffer, but it also never raises the explicit `EmptyRegionError` the spec
mandates (no error path of `crop_image` produces anything but `ValueError`). -/
theorem crop_empty_region_raises_builtin :
    (∀ (image : Img) (points : List (Int × Int)),
       nzCoords (maskedImage image points) = [] →
       crop_image image points = .error .valueError) ∧
    (∀ (image : Img) (points : List (Int × Int)) (e : PyExn),
       crop_image image points = .error e → e = .valueError) ∧
    crop_image white20 outsidePoly = .error .valueError := by
  refine ⟨?_, ?_, by decide⟩
  · intro image points h
    exact crop_image_eq_nil h
  · intro image points e h
    cases hnz : nzCoords (maskedImage image points) with
    | nil =>
      have h2 := (crop_image_eq_nil hnz).symm.trans h
      injection h2 with h1
      exact h1.symm
    | cons p ps =>
      have h2 := (crop_image_eq_cons hnz).symm.trans h
      simp at h2

/-- C3, witness: the empty-region behaviour evaluated on the 20×20 white image
and a polygon lying entirely outside its bounds. -/
theorem crop_empty_region_raises_builtin_witness :
    crop_image white20 outsidePoly = .error .valueError :=
  crop_empty_region_raises_builtin.1 white20 outsidePoly (by decide)

/-- C5 (amended): for every selector whose quote-split has a second field and
whose space-split tokens each parse as a comma-separated numeric pair (no
trailing space in the points value), `extract_polygon_points` returns one
integer pair per token, in selector order; in particular the spec's example
selector yields `[[0,0],[10,0],[10,10],[0,10]]`.  The documented format with a
trailing space before the closing quote is excluded: its empty final token
raises `ValueError` (see the counterexample). -/
theorem extract_polygon_points_valid :
    (∀ (selector selector_value : String),
       (pySplit selector '"')[1]? = some selector_value →
       (∀ t ∈ pySplit selector_value ' ', tokenOk t = true) →
       ∃ pts, extract_polygon_points selector = .ok pts ∧
         pts.length = (pySplit selector_value ' ').length) ∧
    extract_polygon_points sel0 = .ok [(0, 0), (10, 0), (10, 10), (0, 10)] := by
  refine ⟨?_, by decide⟩
  intro selector selector_value h1 h2
  obtain ⟨pts, hpts, hlen⟩ := parsePointTokens_ok (pySplit selector_value ' ') h2
  refine ⟨pts, ?_, hlen⟩
  unfold extract_polygon_points
  rw [h1]
  exact hpts

/-- C5, counterexample to the claim as stated: the documented selector format
taken literally — with its trailing space before the closing quote — makes
`extract_polygon_points` raise `ValueError` (the empty final token fails the
two-way unpacking) instead of returning a point sequence. -/
theorem extract_polygon_points_trailing_space_raises :
    extract_polygon_points selTrailing = .error .valueError := by decide

/-- C5, witness: the general statement instantiated on the spec's example
selector, whose points value splits into four well-formed tokens. -/
theorem extract_polygon_points_valid_witness :
    ∃ pts, extract_polygon_points sel0 = .ok pts ∧
      pts.length = (pySplit "0,0 10,0 10,10 0,10" ' ').length :=
  extract_polygon_points_valid.1 sel0 "0,0 10,0 10,10 0,10" (by decide) (by decide)

/-- C6: malformed selectors make `extract_polygon_points` raise — a missing
quote delimiter raises the built-in `IndexError`, a non-numeric coordinate or
a token that does not split into exactly two comma-separated halves raises the
built-in `ValueError` — and every error the function can raise is one of these
two built-ins: the explicit `ParseError` the spec mandates is never raised. -/
theorem extract_polygon_points_malformed_raises :
    extract_polygon_points selNoQuotes = .error .indexError ∧
    extract_polygon_points selNonNumeric = .error .valueError ∧
    extract_polygon_points selBadPair = .error .valueError ∧
    (∀ (selector : String) (e : PyExn), extract_polygon_points selector = .error e →
       e = .indexError ∨ e = .valueError) := by
  refine ⟨by decide, by decide, by decide, ?_⟩
  intro selector e h
  unfold extract_polygon_points at h
  cases hq : (pySplit selector '"')[1]? with
  | none =>
    rw [hq] at h
    injection h with h1
    exact .inl h1.symm
  | some selector_value =>
    rw [hq] at h
    exact .inr (parsePointTokens_error h)

/-- C6, witness: the never-`ParseError` statement instantiated on the
quoteless malformed selector. -/
theorem extract_polygon_points_malformed_raises_witness :
    PyExn.indexError = PyExn.indexError ∨ PyExn.indexError = PyExn.valueError :=
  extract_polygon_points_malformed_raises.2.2.2 selNoQuotes PyExn.indexError (by decide)

/-- C4: `annotation_contains_keyword` returns `True` exactly when the
lowercased keyword occurs as a substring of the lowercasing of some
`title.en.values` entry (when the `title` field exists) or of some tag
`term_label` (when the `tag` field exists); an annotation lacking both fields
returns `False` for every keyword; a title value `Red Robe` matches the
keywords `robe` and `ROBE`. -/
theorem annotation_contains_keyword_spec :
    (∀ (a : Annotation) (kw : String),
       annotation_contains_keyword a kw = true ↔
         ((∃ vs, a.fields.title = some vs ∧ ∃ v ∈ vs, SubstrOf (pyLower kw) (pyLower v)) ∨
          (∃ ts, a.fields.tag = some ts ∧ ∃ v ∈ ts, SubstrOf (pyLower kw) (pyLower v)))) ∧
    annotation_contains_keyword redRobeAnn "robe" = true ∧
    annotation_contains_keyword redRobeAnn "ROBE" = true ∧
    (∀ kw, annotation_contains_keyword bareAnn kw = false) := by
  refine ⟨annotation_contains_keyword_iff, by decide, by decide, ?_⟩
  intro kw
  rfl

/-- C4, witness: the characterisation instantiated on the `Red Robe`
annotation and the keyword `robe`, together with its evaluation. -/
theorem annotation_contains_keyword_spec_witness :
    (annotation_contains_keyword redRobeAnn "robe" = true ↔
      ((∃ vs, redRobeAnn.fields.title = some vs ∧
         ∃ v ∈ vs, SubstrOf (pyLower "robe") (pyLower v)) ∨
       (∃ ts, redRobeAnn.fields.tag = some ts ∧
         ∃ v ∈ ts, SubstrOf (pyLower "robe") (pyLower v)))) ∧
    annotation_contains_keyword redRobeAnn "robe" = true :=
  ⟨annotation_contains_keyword_spec.1 redRobeAnn "robe", by decide⟩

/-- C10: with the empty keyword, `annotation_contains_keyword` returns `True`
exactly when the annotation has a `title` field with at least one value or a
`tag` field with at least one value (the empty string is a substring of every
string); it returns `False` when both fields are absent or their value
sequences are empty. -/
theorem empty_keyword_matches_nonempty_fields :
    ∀ a : Annotation,
      annotation_contains_keyword a "" = true ↔
        ((∃ vs, a.fields.title = some vs ∧ vs ≠ []) ∨
         (∃ ts, a.fields.tag = some ts ∧ ts ≠ [])) := by
  intro a
  rw [annotation_contains_keyword_iff]
  constructor
  · rintro (⟨vs, hvs, v, hv, -⟩ | ⟨ts, hts, v, hv, -⟩)
    · exact .inl ⟨vs, hvs, List.ne_nil_of_mem hv⟩
    · exact .inr ⟨ts, hts, List.ne_nil_of_mem hv⟩
  · rintro (⟨vs, hvs, hne⟩ | ⟨ts, hts, hne⟩)
    · obtain ⟨v, vs', rfl⟩ := List.exists_cons_of_ne_nil hne
      exact .inl ⟨_, hvs, v, List.mem_cons_self _ _, substrOf_pyLower_empty _⟩
    · obtain ⟨v, ts', rfl⟩ := List.exists_cons_of_ne_nil hne
      exact .inr ⟨_, hts, v, List.mem_cons_self _ _, substrOf_pyLower_empty _⟩

/-- C10, witness: the empty-keyword characterisation instantiated on the
`Red Robe` annotation, together with its evaluation. -/
theorem empty_keyword_matches_nonempty_fields_witness :
    (annotation_contains_keyword redRobeAnn "" = true ↔
      ((∃ vs, redRobeAnn.fields.title = some vs ∧ vs ≠ []) ∨
       (∃ ts, redRobeAnn.fields.tag = some ts ∧ ts ≠ []))) ∧
    annotation_contains_keyword redRobeAnn "" = true :=
  ⟨empty_keyword_matches_nonempty_fields redRobeAnn, by decide⟩

/-- Bridge: the `if len(results) > 0` guard around the keyword-search table
loop is redundant — for an empty `results` the loop body would produce the
empty table anyway. -/
theorem buildTableKS_eq_go (htmlOf : Img → String) (results : List Annotation)
    (images : List (Nat × Option Img)) :
    buildTableKS htmlOf results images = buildTableKSGo htmlOf images results emptyTable := by
  cases results with
  | nil => rfl
  | cons a l =>
    unfold buildTableKS
    rw [if_pos (by simp)]

/-- C2 (amended): the single-annotation-set table loop emits exactly one row
per annotation (all five columns have one entry per annotation) whenever it
finishes without an exception, and a missing `title`/`tag`/`note`/`line_color`
field yields the empty string in its column; the keyword-search table loop,
however, emits one row per annotation *whose cached image is present and not
`None`* — an annotation whose stored image is `None` (failed decode) is
skipped entirely, producing no row at all (see the counterexample). -/
theorem table_rows_complete :
    (∀ (htmlOf : Img → String) (image : Img) (annotations : List Annotation) (t : TableData),
       buildTableSingle htmlOf image annotations = .ok t →
       t.image.length = annotations.length ∧ t.title.length = annotations.length ∧
       t.tags.length = annotations.length ∧ t.notes.length = annotations.length ∧
       t.line_color.length = annotations.length) ∧
    (∀ fields : Fields, fields.title = none → titleCell fields = "") ∧
    (∀ fields : Fields, fields.tag = none → tagsCell fields = "") ∧
    (∀ fields : Fields, fields.note = none → notesCell fields = "") ∧
    (∀ fields : Fields, fields.line_color = none → lineColorCell fields = "") ∧
    (∀ (htmlOf : Img → String) (results : List Annotation)
       (images : List (Nat × Option Img)) (t : TableData),
       buildTableKS htmlOf results images = .ok t →
       t.image.length = (results.filter (imageKept images)).length ∧
       t.title.length = (results.filter (imageKept images)).length ∧
       t.tags.length = (results.filter (imageKept images)).length ∧
       t.notes.length = (results.filter (imageKept images)).length ∧
       t.line_color.length = (results.filter (imageKept images)).length) := by
  refine ⟨?_, ?_, ?_, ?_, ?_, ?_⟩
  · intro htmlOf image annotations t h
    obtain ⟨h1, h2, h3, h4, h5⟩ := buildTableSingleGo_ok htmlOf image annotations emptyTable t h
    exact ⟨by simp [emptyTable] at h5; simpa using h5, by simp [h1, emptyTable],
      by simp [h2, emptyTable], by simp [h3, emptyTable], by simp [h4, emptyTable]⟩
  · intro fields h
    unfold titleCell
    rw [h]
  · intro fields h
    unfold tagsCell
    rw [h]
  · intro fields h
    unfold notesCell
    rw [h]
  · intro fields h
    unfold lineColorCell
    rw [h]
  · intro htmlOf results images t h
    rw [buildTableKS_eq_go] at h
    obtain ⟨h1, h2, h3, h4, h5⟩ := buildTableKSGo_ok htmlOf images results emptyTable t h
    exact ⟨by simp [emptyTable] at h5; simpa using h5, by simp [h1, emptyTable],
      by simp [h2, emptyTable], by simp [h3, emptyTable], by simp [h4, emptyTable]⟩

/-- C2, counterexample to the claim as stated: one annotation whose cached
image is stored as `None` (a decode failure) gives a keyword-search table with
*zero* rows — not a row with empty cells — although one annotation was
processed. -/
theorem ks_table_skips_none_image :
    buildTableKS (fun _ => "") [ann7] imagesNone7 = .ok emptyTable ∧
    [ann7].length = 1 ∧ emptyTable.title.length = 0 := by
  exact ⟨by decide, by decide, by decide⟩

/-- C2, witness: the single-set row-per-annotation statement instantiated on a
one-annotation run whose annotation has no metadata fields at all (all four
cells default to the empty string). -/
theorem table_rows_complete_witness :
    (⟨[""], [""], [""], [""], [""]⟩ : TableData).image.length = [plainAnn].length ∧
    (⟨[""], [""], [""], [""], [""]⟩ : TableData).title.length = [plainAnn].length ∧
    (⟨[""], [""], [""], [""], [""]⟩ : TableData).tags.length = [plainAnn].length ∧
    (⟨[""], [""], [""], [""], [""]⟩ : TableData).notes.length = [plainAnn].length ∧
    (⟨[""], [""], [""], [""], [""]⟩ : TableData).line_color.length = [plainAnn].length :=
  table_rows_complete.1 (fun _ => "") white20 [plainAnn]
    ⟨[""], [""], [""], [""], [""]⟩ (by decide)

/-- C8: whenever a table build finishes, its rows are exactly the input
annotations in input order — the four metadata columns are literal `List.map`s
of the cell functions over the input sequence (over its image-kept
subsequence for the keyword pipeline), so no re-sorting, re-grouping or
de-duplication happens between fetching and row emission. -/
theorem table_order_preserved :
    (∀ (htmlOf : Img → String) (image : Img) (annotations : List Annotation) (t : TableData),
       buildTableSingle htmlOf image annotations = .ok t →
       t.title = annotations.map (fun a => titleCell a.fields) ∧
       t.tags = annotations.map (fun a => tagsCell a.fields) ∧
       t.notes = annotations.map (fun a => notesCell a.fields) ∧
       t.line_color = annotations.map (fun a => lineColorCell a.fields)) ∧
    (∀ (htmlOf : Img → String) (results : List Annotation)
       (images : List (Nat × Option Img)) (t : TableData),
       buildTableKS htmlOf results images = .ok t →
       t.title = (results.filter (imageKept images)).map (fun a => titleCell a.fields) ∧
       t.tags = (results.filter (imageKept images)).map (fun a => tagsCell a.fields) ∧
       t.notes = (results.filter (imageKept images)).map (fun a => notesCell a.fields) ∧
       t.line_color = (results.filter (imageKept images)).map (fun a => lineColorCell a.fields)) := by
  constructor
  · intro htmlOf image annotations t h
    obtain ⟨h1, h2, h3, h4, -⟩ := buildTableSingleGo_ok htmlOf image annotations emptyTable t h
    exact ⟨by simpa [emptyTable] using h1, by simpa [emptyTable] using h2,
      by simpa [emptyTable] using h3, by simpa [emptyTable] using h4⟩
  · intro htmlOf results images t h
    rw [buildTableKS_eq_go] at h
    obtain ⟨h1, h2, h3, h4, -⟩ := buildTableKSGo_ok htmlOf images results emptyTable t h
    exact ⟨by simpa [emptyTable] using h1, by simpa [emptyTable] using h2,
      by simpa [emptyTable] using h3, by simpa [emptyTable] using h4⟩

/-- C8, witness: the keyword-pipeline order statement instantiated on a
one-annotation run with a present image, together with the concrete table. -/
theorem table_order_preserved_witness :
    ((⟨[""], ["A"], [""], [""], [""]⟩ : TableData).title =
       ([ann7].filter (imageKept imagesSome7)).map (fun a => titleCell a.fields) ∧
     (⟨[""], ["A"], [""], [""], [""]⟩ : TableData).tags =
       ([ann7].filter (imageKept imagesSome7)).map (fun a => tagsCell a.fields) ∧
     (⟨[""], ["A"], [""], [""], [""]⟩ : TableData).notes =
       ([ann7].filter (imageKept imagesSome7)).map (fun a => notesCell a.fields) ∧
     (⟨[""], ["A"], [""], [""], [""]⟩ : TableData).line_color =
       ([ann7].filter (imageKept imagesSome7)).map (fun a => lineColorCell a.fields)) ∧
    buildTableKS (fun _ => "") [ann7] imagesSome7 = .ok ⟨[""], ["A"], [""], [""], [""]⟩ :=
  ⟨table_order_preserved.2 (fun _ => "") [ann7] imagesSome7
    ⟨[""], ["A"], [""], [""], [""]⟩ (by decide), by decide⟩

/-- C9: in the keyword-search table loop the lookup
`images[annotation['image_id']]` is unguarded — an annotation whose image id
is absent from the cache raises `KeyError` immediately and the whole build
aborts (no run containing such an annotation can return a table); the
`is not None` guard only skips annotations whose *stored* image is `None`;
and the cache loader never inserts a key whose metadata fetch failed or whose
`info.json` fetch failed, so such annotations do abort the whole build. -/
theorem ks_missing_image_key_aborts :
    (∀ (htmlOf : Img → String) (images : List (Nat × Option Img)) (a : Annotation)
       (l : List Annotation) (acc : TableData),
       lookupImg images a.image_id = none →
       buildTableKSGo htmlOf images (a :: l) acc = .error .keyError) ∧
    (∀ (htmlOf : Img → String) (images : List (Nat × Option Img)) (a : Annotation)
       (l : List Annotation) (acc : TableData),
       lookupImg images a.image_id = some none →
       buildTableKSGo htmlOf images (a :: l) acc = buildTableKSGo htmlOf images l acc) ∧
    (∀ (htmlOf : Img → String) (results : List Annotation)
       (images : List (Nat × Option Img)) (a : Annotation),
       a ∈ results → lookupImg images a.image_id = none →
       ∀ t, buildTableKS htmlOf results images ≠ .ok t) ∧
    (∀ (getImage : Nat → Option String) (getInfo : String → Option (Nat × Nat))
       (fetchImage : String → Nat → Nat → Option Img) (image_id : Nat),
       (∀ u, getImage image_id = some u → getInfo u = none) →
       ∀ results, lookupImg (buildImages getImage getInfo fetchImage results) image_id = none) ∧
    (∀ (htmlOf : Img → String) (getImage : Nat → Option String)
       (getInfo : String → Option (Nat × Nat)) (fetchImage : String → Nat → Nat → Option Img)
       (results : List Annotation) (a : Annotation),
       a ∈ results → (∀ u, getImage a.image_id = some u → getInfo u = none) →
       ∀ t, buildTableKS htmlOf results (buildImages getImage getInfo fetchImage results) ≠
         .ok t) := by
  refine ⟨buildTableKSGo_cons_none, buildTableKSGo_cons_skip, ?_, ?_, ?_⟩
  · intro htmlOf results images a ha hl t
    rw [buildTableKS_eq_go]
    exact buildTableKSGo_not_ok htmlOf images results emptyTable ⟨a, ha, hl⟩ t
  · intro getImage getInfo fetchImage image_id hmiss results
    exact buildImages_lookup_none getImage getInfo fetchImage image_id hmiss results
  · intro htmlOf getImage getInfo fetchImage results a ha hmiss t
    rw [buildTableKS_eq_go]
    refine buildTableKSGo_not_ok htmlOf _ results emptyTable ⟨a, ha, ?_⟩ t
    exact buildImages_lookup_none getImage getInfo fetchImage a.image_id hmiss results

/-- C9, witness: the immediate-`KeyError` statement instantiated on an empty
image cache and one annotation. -/
theorem ks_missing_image_key_aborts_witness :
    buildTableKSGo (fun _ => "") [] [ann7] emptyTable = .error .keyError :=
  ks_missing_image_key_aborts.1 (fun _ => "") [] ann7 [] emptyTable (by decide)

/-- C7: the keyword-search traversal equals, per image set, the flatMap of its
branch results — a branch whose annotation-set listing failed contributes
nothing while sibling branches still contribute and every annotation of a
successful branch passes through the keyword filter (members of the result
always satisfy the filter); the single-annotation-set pipeline performs no
status check — its outcome depends only on the response payload — and on an
error payload it fails with the downstream `TypeError` of iterating the error
object. -/
theorem traversal_guard_behaviour :
    (∀ (api : IawApi) (keyword : String),
       searchTraversal api keyword =
         (api.listImageSets.getD []).flatMap (branchAnnotations api keyword)) ∧
    (∀ (api : IawApi) (keyword : String) (image_set_id : Nat),
       api.listAnnotationSets image_set_id = none →
       branchAnnotations api keyword image_set_id = []) ∧
    (∀ (api : IawApi) (keyword : String) ( annotation : Annotation),
       annotation ∈ searchTraversal api keyword →
       annotation_contains_keyword annotation keyword = true) ∧
    (∀ (htmlOf : Img → String) (image : Img) (r r' : HttpResponse),
       r.payload = r'.payload →
       runSingleSetTable htmlOf image r = runSingleSetTable htmlOf image r') ∧
    (∀ (htmlOf : Img → String) (image : Img) (status : Nat) (message : String),
       runSingleSetTable htmlOf image ⟨status, .errObj message⟩ = .error .typeError) := by
  refine ⟨searchTraversal_eq_flatMap, ?_, ?_, ?_, ?_⟩
  · intro api keyword image_set_id h
    simp [branchAnnotations, h]
  · intro api keyword annotation hmem
    rw [searchTraversal_eq_flatMap, List.mem_flatMap] at hmem
    obtain ⟨image_set_id, -, hmem2⟩ := hmem
    unfold branchAnnotations at hmem2
    rw [List.mem_flatMap] at hmem2
    obtain ⟨annotation_set_id, -, hmem3⟩ := hmem2
    exact (List.mem_filter.mp hmem3).2
  · intro htmlOf image r r' h
    unfold runSingleSetTable singleSetAnnotationsJson
    rw [h]
  · intro htmlOf image status message
    rfl

/-- C7, witness: on the tiny two-image-set API whose first branch fails, the
flatMap characterisation instantiates, the failed branch is empty, and the
traversal still returns the matching annotation of the sibling branch. -/
theorem traversal_guard_behaviour_witness :
    (searchTraversal apiW "robe" =
      (apiW.listImageSets.getD []).flatMap (branchAnnotations apiW "robe")) ∧
    branchAnnotations apiW "robe" 1 = [] ∧
    searchTraversal apiW "robe" = [redRobeAnn] :=
  ⟨traversal_guard_behaviour.1 apiW "robe",
   traversal_guard_behaviour.2.1 apiW "robe" 1 (by decide), by decide⟩
